import Mathlib

/-!
go-u2f-server: a shallow embedding of the Go binding

The Go package `u2fserver` is a thin cgo binding over the C library
`libu2f-server`.  This file embeds the Go side (`errors.go`, `u2f_server.go`):

* `iToErr` and the table `errorList`;
* the context setters, the two challenge calls and the two verify calls;
* the Go standard-library codec `base64.StdEncoding` that `setPublicKey` and
  `getPublicKey` go through.

The C library is outside the repository.  It is a parameter of the model
(`Backend`): every C function is a field returning the status code and the
outputs the Go code reads.  Every call into `libu2f-server` made on a context
is appended to a call log, so that "the backend was not invoked" is a statement
about the log.

Go values are modelled as follows: a byte is `Fin 256`, a Go `string` or
`[]byte` is a list of bytes, the Go `error` interface is `Option GoError`
(`none` is `nil`), and a function that can raise a run-time panic returns an
`Except Panic _`.
-/

namespace U2fServer

/-! ## errors.go -/

/-- The package-level error values of `errors.go`. -/
inductive GoError
  | ErrMemory
  | ErrJSON
  | ErrBase64
  | ErrCrypto
  | ErrOrigin
  | ErrChallenge
  | ErrSignature
  | ErrFormat
  | ErrInvalidPubKey
  | ErrDeviceNumber
  | ErrOther
  deriving DecidableEq, Repr

open GoError

/-- Run-time panics of the Go code that the model can reach. -/
inductive Panic
  | indexOutOfRange (index : Int) (length : Nat)
  | nilPointerDereference
  deriving DecidableEq, Repr

instance instDecidableEqExcept {ε α : Type} [DecidableEq ε] [DecidableEq α] :
    DecidableEq (Except ε α) := fun a b =>
  match a, b with
  | Except.ok x, Except.ok y =>
    if h : x = y then isTrue (by rw [h]) else isFalse (fun h2 => h (by cases h2; rfl))
  | Except.error x, Except.error y =>
    if h : x = y then isTrue (by rw [h]) else isFalse (fun h2 => h (by cases h2; rfl))
  | Except.ok _, Except.error _ => isFalse (fun h => by cases h)
  | Except.error _, Except.ok _ => isFalse (fun h => by cases h)

/-- The table `errorList` of `errors.go`, line 51. -/
def errorList : List GoError :=
  [ErrMemory, ErrJSON, ErrBase64, ErrCrypto, ErrOrigin, ErrChallenge, ErrSignature, ErrFormat]

/-- Go slice indexing `xs[i]` with a signed index: a panic when `i` is negative
or not below `len(xs)`. -/
def sliceIndex {α : Type} (xs : List α) (i : Int) : Except Panic α :=
  if i < 0 then Except.error (Panic.indexOutOfRange i xs.length)
  else
    match xs.get? i.toNat with
    | some x => Except.ok x
    | none => Except.error (Panic.indexOutOfRange i xs.length)

/-- The function `iToErr` of `errors.go`, lines 53-63.  `C.u2fs_rc` is a C enum with
negative members, a 32-bit signed integer on the Go side; the subtraction
`e - 1` is only reached for `-8 ≤ e < 0`, where it cannot wrap. -/
def iToErr (e : Int) : Except Panic (Option GoError) :=
  if e ≥ 0 then Except.ok none
  else if e < -8 then Except.ok (some ErrOther)
  else (sliceIndex errorList (-(e - 1))).map some

/-! ## encoding/base64 (Go standard library), `StdEncoding`

`StdEncoding` is the RFC 4648 standard alphabet with `=` padding, in the
non-strict mode: the decoder skips CR and LF anywhere and does not check the
unused low bits of the last sextet. -/

/-- A byte. -/
abbrev Byte := Fin 256

/-- A Go `string` (equally a `[]byte`): its bytes. -/
abbrev GoString := List Byte

/-- The Go conversion `byte(x)` of an unsigned integer: the low eight bits. -/
def byte (x : Nat) : Byte := ⟨x % 256, Nat.mod_lt x (by decide)⟩

/-- The alphabet constant `encodeStd` of `encoding/base64`. -/
def encodeStd : List Byte :=
  "ABCDEFGHIJKLMNOPQRSTUVWXYZabcdefghijklmnopqrstuvwxyz0123456789+/".toList.map
    (fun ch => byte ch.toNat)

/-- Lookup `enc.encode[v]` of a sextet `v` (always below 64 at the call sites). -/
def encodeChar (v : Nat) : Byte := encodeStd.getD v 0

/-- The padding character `=` of `StdEncoding`. -/
def padChar : Byte := 61

/-- Lookup `enc.decodeMap[c]`: the position of `c` in the alphabet; `none` stands
for the table's `0xff` entries. -/
def decodeMap (c : Byte) : Option Nat :=
  if c ∈ encodeStd then some (encodeStd.indexOf c) else none

/-- The sextets `val>>18&0x3F`, `val>>12&0x3F`, `val>>6&0x3F`, `val&0x3F` of a
24-bit group that `Encode` looks up in the alphabet. -/
def encodeQuantum (val : Nat) : List Byte :=
  [encodeChar (val >>> 18 &&& 0x3F), encodeChar (val >>> 12 &&& 0x3F),
   encodeChar (val >>> 6 &&& 0x3F), encodeChar (val &&& 0x3F)]

/-- The method `(*Encoding).EncodeToString` for `StdEncoding`: full 3-byte groups give
four characters each, a remainder of one or two bytes gives two or three
characters followed by `=` padding. -/
def EncodeToString : List Byte → GoString
  | [] => []
  | [b0] =>
    let val := b0.val <<< 16
    [encodeChar (val >>> 18 &&& 0x3F), encodeChar (val >>> 12 &&& 0x3F), padChar, padChar]
  | [b0, b1] =>
    let val := b0.val <<< 16 ||| b1.val <<< 8
    [encodeChar (val >>> 18 &&& 0x3F), encodeChar (val >>> 12 &&& 0x3F),
     encodeChar (val >>> 6 &&& 0x3F), padChar]
  | b0 :: b1 :: b2 :: rest =>
    encodeQuantum (b0.val <<< 16 ||| b1.val <<< 8 ||| b2.val) ++ EncodeToString rest

/-- Test `in == 10 || in == 13` (LF or CR) of the decoder. -/
def isNewline (c : Byte) : Bool := c = 10 || c = 13

/-- The loops `for si < len(src) && (src[si] == LF || src[si] == CR) { si++ }` of
`decodeQuantum`. -/
def skipNewlines : GoString → GoString
  | [] => []
  | c :: rest => if isNewline c then skipNewlines rest else c :: rest

/-- The value `dbuf[0]<<18 | dbuf[1]<<12 | dbuf[2]<<6 | dbuf[3]` of a quantum whose
sextets read so far are `dbuf` (missing ones are zero). -/
def quantumVal (dbuf : List Nat) : Nat :=
  dbuf.getD 0 0 <<< 18 ||| dbuf.getD 1 0 <<< 12 ||| dbuf.getD 2 0 <<< 6 ||| dbuf.getD 3 0

/-- The bytes a quantum of `dlen` sextets contributes: `dlen - 1` bytes taken from
the top of the 24-bit value. -/
def quantumBytes (dbuf : List Nat) : List Byte :=
  let val := quantumVal dbuf
  ([byte (val >>> 16), byte (val >>> 8), byte val] : List Byte).take (dbuf.length - 1)

/-- The method `(*Encoding).DecodeString` for `StdEncoding`, as the loop of `decodeQuantum`
calls it runs: `dbuf` holds the sextets of the current quantum.  The result is
`none` when Go returns a non-nil `CorruptInputError`. -/
def decodeFrom : GoString → List Nat → Option (List Byte)
  | [], dbuf =>
    -- end of input: fine between quanta, corrupt inside one (padding is required)
    if dbuf.length = 0 then some [] else none
  | c :: rest, dbuf =>
    match decodeMap c with
    | some v =>
      let dbuf2 := dbuf ++ [v]
      if dbuf2.length = 4 then
        (decodeFrom rest []).map (fun out => quantumBytes dbuf2 ++ out)
      else decodeFrom rest dbuf2
    | none =>
      if isNewline c then decodeFrom rest dbuf
      else if c ≠ padChar then none
      else if dbuf.length < 2 then none
      else if dbuf.length = 2 then
        -- a second pad character is expected, newlines may come first
        match skipNewlines rest with
        | [] => none
        | c2 :: rest2 =>
          if c2 ≠ padChar then none
          else if skipNewlines rest2 ≠ [] then none
          else some (quantumBytes dbuf)
      else
        if skipNewlines rest ≠ [] then none
        else some (quantumBytes dbuf)

/-- The method `(*Encoding).DecodeString` for `StdEncoding`; `none` is a non-nil error. -/
def DecodeString (s : GoString) : Option (List Byte) := decodeFrom s []

/-! ## u2f_server.go: the C library as a parameter -/

/-- An unsigned 32-bit integer (`C.uint32_t`, Go `uint32`). -/
abbrev Uint32 := Fin 4294967296

/-- The struct `Client` of `u2f_server.go`, lines 42-45. -/
structure Client where
  Handle : GoString
  PubKey : GoString
  deriving DecidableEq, Repr

/-- The calls into `libu2f-server` that the binding makes, with the buffers it
passes. -/
inductive Call
  | init
  | set_origin (txt : List Byte)
  | set_appid (txt : List Byte)
  | set_challenge (txt : List Byte)
  | set_keyHandle (txt : List Byte)
  | set_publicKey (data : List Byte)
  | registration_challenge
  | registration_verify (txt : List Byte)
  | get_registration_keyHandle
  | get_registration_publicKey
  | free_reg_res
  | authentication_challenge
  | authentication_verify (txt : List Byte)
  | get_authentication_result
  | free_auth_res
  deriving DecidableEq, Repr

/-- The C library `libu2f-server` as the binding sees it.  `σ` is the state behind a
`u2fs_ctx_t` pointer (origin, appid, challenge, key handle, public key), `ρ`
and `α` are what `u2fs_reg_res_t` and `u2fs_auth_res_t` pointers point to.
Every function returns its `u2fs_rc` status first.  Output parameters are
returned as values; the Go code reads them only on the paths shown below. -/
structure Backend (σ ρ α : Type) where
  u2fs_init : Int × σ
  u2fs_set_origin : σ → List Byte → Int × σ
  u2fs_set_appid : σ → List Byte → Int × σ
  u2fs_set_challenge : σ → List Byte → Int × σ
  u2fs_set_keyHandle : σ → List Byte → Int × σ
  u2fs_set_publicKey : σ → List Byte → Int × σ
  u2fs_registration_challenge : σ → Int × GoString × σ
  u2fs_registration_verify : σ → List Byte → Int × ρ × σ
  u2fs_get_registration_keyHandle : ρ → GoString
  -- the memory at the returned pointer, by offset
  u2fs_get_registration_publicKey : ρ → Nat → Byte
  u2fs_authentication_challenge : σ → Int × GoString × σ
  u2fs_authentication_verify : σ → List Byte → Int × α × σ
  -- status, then the outputs `ver`, `ctr`, `present`
  u2fs_get_authentication_result : α → Int × Int × Uint32 × Byte

/-- A `*Context` in use: the state behind `ctx.ctx` and the log of the calls made
into the C library so far. -/
structure World (σ : Type) where
  ctx : σ
  calls : List Call
  deriving DecidableEq

/-- The cgo helper `C.CString`: a fresh C buffer holding the bytes of `s` and a
terminating NUL. -/
def CString (s : GoString) : List Byte := s ++ [0]

/-- The cgo helper `C.GoBytes(p, n)`: the `n` bytes of memory starting at `p`. -/
def GoBytes (mem : Nat → Byte) (n : Nat) : List Byte := (List.range n).map mem

section Binding

variable {σ ρ α : Type}

/-- The method `Server.Open`, lines 59-66.  The first component is the returned
`*Context` (`none` is the nil pointer). -/
def Open (B : Backend σ ρ α) : Option (World σ) × Except Panic (Option GoError) :=
  let (rc, c) := B.u2fs_init
  if rc = 0 then (some ⟨c, [Call.init]⟩, Except.ok none)
  else (none, iToErr rc)

/-- The method `Context.setOrigin`, lines 74-79. -/
def setOrigin (B : Backend σ ρ α) (w : World σ) (origin : GoString) :
    World σ × Except Panic (Option GoError) :=
  let txt := CString origin
  let (rc, c) := B.u2fs_set_origin w.ctx txt
  (⟨c, w.calls ++ [Call.set_origin txt]⟩, iToErr rc)

/-- The method `Context.setAppID`, lines 82-87. -/
def setAppID (B : Backend σ ρ α) (w : World σ) (appid : GoString) :
    World σ × Except Panic (Option GoError) :=
  let txt := CString appid
  let (rc, c) := B.u2fs_set_appid w.ctx txt
  (⟨c, w.calls ++ [Call.set_appid txt]⟩, iToErr rc)

/-- The method `Context.setChallenge`, lines 90-95. -/
def setChallenge (B : Backend σ ρ α) (w : World σ) (challenge : GoString) :
    World σ × Except Panic (Option GoError) :=
  let txt := CString challenge
  let (rc, c) := B.u2fs_set_challenge w.ctx txt
  (⟨c, w.calls ++ [Call.set_challenge txt]⟩, iToErr rc)

/-- The method `Context.setKeyHandle`, lines 98-103. -/
def setKeyHandle (B : Backend σ ρ α) (w : World σ) (keyHandle : GoString) :
    World σ × Except Panic (Option GoError) :=
  let txt := CString keyHandle
  let (rc, c) := B.u2fs_set_keyHandle w.ctx txt
  (⟨c, w.calls ++ [Call.set_keyHandle txt]⟩, iToErr rc)

/-- The method `Context.setPublicKey`, lines 106-119. -/
def setPublicKey (B : Backend σ ρ α) (w : World σ) (publicKeyT : GoString) :
    World σ × Except Panic (Option GoError) :=
  match DecodeString publicKeyT with
  | none => (w, Except.ok (some ErrBase64))
  | some publicKey =>
    if publicKey.length ≠ 65 then (w, Except.ok (some ErrInvalidPubKey))
    else
      let (rc, c) := B.u2fs_set_publicKey w.ctx publicKey
      (⟨c, w.calls ++ [Call.set_publicKey publicKey]⟩, iToErr rc)

/-- The method `Context.registrationChallenge`, lines 123-130. -/
def registrationChallenge (B : Backend σ ρ α) (w : World σ) :
    World σ × Except Panic (GoString × Option GoError) :=
  let (rc, output, c) := B.u2fs_registration_challenge w.ctx
  let w1 : World σ := ⟨c, w.calls ++ [Call.registration_challenge]⟩
  if rc ≠ 0 then (w1, (iToErr rc).map (fun err => ([], err)))
  else (w1, Except.ok (output, none))

/-- The method `Context.RegistrationChallenge`, lines 134-142. -/
def RegistrationChallenge (B : Backend σ ρ α) (w : World σ) (origin appid : GoString) :
    World σ × Except Panic (GoString × Option GoError) :=
  match setAppID B w appid with
  | (w1, Except.error p) => (w1, Except.error p)
  | (w1, Except.ok (some err)) => (w1, Except.ok ([], some err))
  | (w1, Except.ok none) =>
    match setOrigin B w1 origin with
    | (w2, Except.error p) => (w2, Except.error p)
    | (w2, Except.ok (some err)) => (w2, Except.ok ([], some err))
    | (w2, Except.ok none) => registrationChallenge B w2

/-- The method `Context.registrationVerify`, lines 145-155.  The first component of the
result is the returned `*registrationResult` (`none` is the nil pointer). -/
def registrationVerify (B : Backend σ ρ α) (w : World σ) (response : GoString) :
    World σ × Except Panic (Option ρ × Option GoError) :=
  let txt := CString response
  let (rc, rr, c) := B.u2fs_registration_verify w.ctx txt
  let w1 : World σ := ⟨c, w.calls ++ [Call.registration_verify txt]⟩
  if rc ≠ 0 then (w1, (iToErr rc).map (fun err => (none, err)))
  else (w1, Except.ok (some rr, none))

/-- The method `registrationResult.getKeyHandle`, lines 159-162. -/
def getKeyHandle (B : Backend σ ρ α) (rr : ρ) : GoString :=
  B.u2fs_get_registration_keyHandle rr

/-- The method `registrationResult.getPublicKey`, lines 166-170. -/
def getPublicKey (B : Backend σ ρ α) (rr : ρ) : GoString :=
  let data := B.u2fs_get_registration_publicKey rr
  let slice := GoBytes data 65
  EncodeToString slice

/-- The method `Context.RegistrationVerify`, lines 178-187.  With a nil error and a nil
`rr` the method calls on `rr` dereference the nil pointer. -/
def RegistrationVerify (B : Backend σ ρ α) (w : World σ) (response : GoString) :
    World σ × Except Panic (Client × Option GoError) :=
  match registrationVerify B w response with
  | (w1, Except.error p) => (w1, Except.error p)
  | (w1, Except.ok (_, some err)) => (w1, Except.ok (⟨[], []⟩, some err))
  | (w1, Except.ok (none, none)) => (w1, Except.error Panic.nilPointerDereference)
  | (w1, Except.ok (some rr, none)) =>
    (⟨w1.ctx, w1.calls ++
        [Call.get_registration_keyHandle, Call.get_registration_publicKey, Call.free_reg_res]⟩,
      Except.ok (⟨getKeyHandle B rr, getPublicKey B rr⟩, none))

/-- The method `Context.authenticationChallenge`, lines 191-198. -/
def authenticationChallenge (B : Backend σ ρ α) (w : World σ) :
    World σ × Except Panic (GoString × Option GoError) :=
  let (rc, output, c) := B.u2fs_authentication_challenge w.ctx
  let w1 : World σ := ⟨c, w.calls ++ [Call.authentication_challenge]⟩
  if rc ≠ 0 then (w1, (iToErr rc).map (fun err => ([], err)))
  else (w1, Except.ok (output, none))

/-- The method `Context.AuthenticationChallenge`, lines 202-216. -/
def AuthenticationChallenge (B : Backend σ ρ α) (w : World σ) (origin appid : GoString)
    (client : Client) : World σ × Except Panic (GoString × Option GoError) :=
  match setAppID B w appid with
  | (w1, Except.error p) => (w1, Except.error p)
  | (w1, Except.ok (some err)) => (w1, Except.ok ([], some err))
  | (w1, Except.ok none) =>
    match setOrigin B w1 origin with
    | (w2, Except.error p) => (w2, Except.error p)
    | (w2, Except.ok (some err)) => (w2, Except.ok ([], some err))
    | (w2, Except.ok none) =>
      match setKeyHandle B w2 client.Handle with
      | (w3, Except.error p) => (w3, Except.error p)
      | (w3, Except.ok (some err)) => (w3, Except.ok ([], some err))
      | (w3, Except.ok none) =>
        match setPublicKey B w3 client.PubKey with
        | (w4, Except.error p) => (w4, Except.error p)
        | (w4, Except.ok (some err)) => (w4, Except.ok ([], some err))
        | (w4, Except.ok none) => authenticationChallenge B w4

/-- The method `Context.authenticationVerify`, lines 219-229.  The first component of
the result is the returned `*authenticationResult` (`none` is the nil pointer). -/
def authenticationVerify (B : Backend σ ρ α) (w : World σ) (response : GoString) :
    World σ × Except Panic (Option α × Option GoError) :=
  let txt := CString response
  let (rc, ar, c) := B.u2fs_authentication_verify w.ctx txt
  let w1 : World σ := ⟨c, w.calls ++ [Call.authentication_verify txt]⟩
  if rc ≠ 0 then (w1, (iToErr rc).map (fun err => (none, err)))
  else (w1, Except.ok (some ar, none))

/-- The method `authenticationResult.getResult`, lines 231-243. -/
def getResult (B : Backend σ ρ α) (ar : α) : Except Panic (Uint32 × Bool × Option GoError) :=
  let (rc, _ver, ctr, present) := B.u2fs_get_authentication_result ar
  if rc ≠ 0 then (iToErr rc).map (fun err => (0, false, err))
  else
    let p : Bool := present ≠ 0
    Except.ok (ctr, p, none)

/-- The method `Context.AuthenticationVerify`, lines 250-257.  With a nil error and a
nil `ar` the call `ar.getResult()` dereferences the nil pointer. -/
def AuthenticationVerify (B : Backend σ ρ α) (w : World σ) (response : GoString) :
    World σ × Except Panic (Uint32 × Bool × Option GoError) :=
  match authenticationVerify B w response with
  | (w1, Except.error p) => (w1, Except.error p)
  | (w1, Except.ok (_, some err)) => (w1, Except.ok (0, false, some err))
  | (w1, Except.ok (none, none)) => (w1, Except.error Panic.nilPointerDereference)
  | (w1, Except.ok (some ar, none)) =>
    (⟨w1.ctx, w1.calls ++ [Call.get_authentication_result, Call.free_auth_res]⟩,
      getResult B ar)

/-- Modelled from the spec: the format check inside `u2fs_registration_verify`, a
function of the C library `libu2f-server`, which is not under `src/`.  Section
4.2 of the spec lists, among the verification steps that must all succeed
before a registration response is accepted, "extracted public key is exactly 65
bytes starting with 0x04, else FormatError".  So on the context state `c` and
the response buffer `txt`, a status 0 comes with a result whose public key
begins with the byte 0x04. -/
def registrationKeyChecked (B : Backend σ ρ α) (c : σ) (txt : List Byte) : Bool :=
  (B.u2fs_registration_verify c txt).1 ≠ 0 ||
    B.u2fs_get_registration_publicKey (B.u2fs_registration_verify c txt).2.1 0 = 4

end Binding

/-! ## A scripted backend, for concrete runs

A backend that stores what the setters give it and answers every call with the
status, the strings and the result values written in its script. -/

/-- What a scripted context remembers: the last buffer each setter received. -/
structure CtxState where
  origin : Option (List Byte)
  appid : Option (List Byte)
  challenge : Option (List Byte)
  keyHandle : Option (List Byte)
  publicKey : Option (List Byte)
  deriving DecidableEq, Repr

/-- The statuses and outputs a scripted backend answers with. -/
structure Script where
  rcInit : Int
  rcSetOrigin : Int
  rcSetAppid : Int
  rcSetChallenge : Int
  rcSetKeyHandle : Int
  rcSetPublicKey : Int
  rcRegistrationChallenge : Int
  rcRegistrationVerify : Int
  rcAuthenticationChallenge : Int
  rcAuthenticationVerify : Int
  rcGetAuthenticationResult : Int
  challengeJSON : GoString
  regKeyHandle : GoString
  regPublicKey : Nat → Byte
  counter : Uint32
  present : Byte

/-- A fresh scripted context: nothing set. -/
def emptyCtx : CtxState := ⟨none, none, none, none, none⟩

/-- The backend that follows the script `s`. -/
def scripted (s : Script) : Backend CtxState Unit Unit where
  u2fs_init := (s.rcInit, emptyCtx)
  u2fs_set_origin := fun c txt => (s.rcSetOrigin, ⟨some txt, c.appid, c.challenge, c.keyHandle, c.publicKey⟩)
  u2fs_set_appid := fun c txt => (s.rcSetAppid, ⟨c.origin, some txt, c.challenge, c.keyHandle, c.publicKey⟩)
  u2fs_set_challenge := fun c txt => (s.rcSetChallenge, ⟨c.origin, c.appid, some txt, c.keyHandle, c.publicKey⟩)
  u2fs_set_keyHandle := fun c txt => (s.rcSetKeyHandle, ⟨c.origin, c.appid, c.challenge, some txt, c.publicKey⟩)
  u2fs_set_publicKey := fun c data => (s.rcSetPublicKey, ⟨c.origin, c.appid, c.challenge, c.keyHandle, some data⟩)
  u2fs_registration_challenge := fun c => (s.rcRegistrationChallenge, s.challengeJSON, c)
  u2fs_registration_verify := fun c _ => (s.rcRegistrationVerify, (), c)
  u2fs_get_registration_keyHandle := fun _ => s.regKeyHandle
  u2fs_get_registration_publicKey := fun _ => s.regPublicKey
  u2fs_authentication_challenge := fun c => (s.rcAuthenticationChallenge, s.challengeJSON, c)
  u2fs_authentication_verify := fun c _ => (s.rcAuthenticationVerify, (), c)
  u2fs_get_authentication_result := fun _ => (s.rcGetAuthenticationResult, 0, s.counter, s.present)

/-- The script in which every call succeeds; the registered key is `0x04` followed
by zero bytes, the counter is 1 and the presence byte is 1. -/
def okScript : Script where
  rcInit := 0
  rcSetOrigin := 0
  rcSetAppid := 0
  rcSetChallenge := 0
  rcSetKeyHandle := 0
  rcSetPublicKey := 0
  rcRegistrationChallenge := 0
  rcRegistrationVerify := 0
  rcAuthenticationChallenge := 0
  rcAuthenticationVerify := 0
  rcGetAuthenticationResult := 0
  challengeJSON := [123, 125]
  regKeyHandle := [65, 65, 65, 65]
  regPublicKey := fun i => if i = 0 then 4 else 0
  counter := 1
  present := 1

/-- A fresh scripted world: nothing set, no call made. -/
def world0 : World CtxState := ⟨emptyCtx, []⟩

/-- A well-formed 65-byte key: `0x04` followed by 64 zero bytes. -/
def key65 : List Byte := 4 :: List.replicate 64 0

/-! ## Lemmas on the Base64 codec -/

theorem decodeMap_encodeChar : ∀ v : Fin 64, decodeMap (encodeChar v.val) = some v.val := by
  decide

theorem decodeMap_encodeChar_lt (v : Nat) (hv : v < 64) : decodeMap (encodeChar v) = some v :=
  decodeMap_encodeChar ⟨v, hv⟩

theorem or_eq_add_of_low (k a b : Nat) (ha : a % 2 ^ k = 0) (hb : b < 2 ^ k) :
    a ||| b = a + b := by
  obtain ⟨q, rfl⟩ : ∃ q, a = 2 ^ k * q := ⟨a / 2 ^ k, by
    have := Nat.div_add_mod a (2 ^ k); omega⟩
  exact (Nat.mul_add_lt_is_or hb q).symm

theorem and_63 (x : Nat) : x &&& 0x3F = x % 64 := Nat.and_pow_two_sub_one_eq_mod x 6

theorem group3_val (b0 b1 b2 : Nat) (h1 : b1 < 256) (h2 : b2 < 256) :
    b0 <<< 16 ||| b1 <<< 8 ||| b2 = b0 * 65536 + b1 * 256 + b2 := by
  simp only [Nat.shiftLeft_eq]
  rw [or_eq_add_of_low 16 (b0 * 2 ^ 16) (b1 * 2 ^ 8) (by omega) (by omega),
    or_eq_add_of_low 8 (b0 * 2 ^ 16 + b1 * 2 ^ 8) b2 (by omega) (by omega)]

theorem group2_val (b0 b1 : Nat) (h1 : b1 < 256) :
    b0 <<< 16 ||| b1 <<< 8 = b0 * 65536 + b1 * 256 := by
  simp only [Nat.shiftLeft_eq]
  rw [or_eq_add_of_low 16 (b0 * 2 ^ 16) (b1 * 2 ^ 8) (by omega) (by omega)]

theorem sextets_val (s0 s1 s2 s3 : Nat) (h1 : s1 < 64) (h2 : s2 < 64) (h3 : s3 < 64) :
    s0 <<< 18 ||| s1 <<< 12 ||| s2 <<< 6 ||| s3 = s0 * 262144 + s1 * 4096 + s2 * 64 + s3 := by
  simp only [Nat.shiftLeft_eq]
  rw [or_eq_add_of_low 18 (s0 * 2 ^ 18) (s1 * 2 ^ 12) (by omega) (by omega),
    or_eq_add_of_low 12 (s0 * 2 ^ 18 + s1 * 2 ^ 12) (s2 * 2 ^ 6) (by omega) (by omega),
    or_eq_add_of_low 6 (s0 * 2 ^ 18 + s1 * 2 ^ 12 + s2 * 2 ^ 6) s3 (by omega) (by omega)]

theorem byte_eq (x : Nat) (b : Byte) (h : x % 256 = b.val) : byte x = b :=
  Fin.ext h

theorem sextets_recompose (V : Nat) (hV : V < 16777216) :
    V / 262144 % 64 * 262144 + V / 4096 % 64 * 4096 + V / 64 % 64 * 64 + V % 64 = V := by
  omega

theorem quantumBytes_three (b0 b1 b2 : Byte) :
    quantumBytes
      [(b0.val * 65536 + b1.val * 256 + b2.val) / 262144 % 64,
       (b0.val * 65536 + b1.val * 256 + b2.val) / 4096 % 64,
       (b0.val * 65536 + b1.val * 256 + b2.val) / 64 % 64,
       (b0.val * 65536 + b1.val * 256 + b2.val) % 64] = [b0, b1, b2] := by
  have h0 := b0.isLt
  have h1 := b1.isLt
  have h2 := b2.isLt
  simp only [quantumBytes, quantumVal, List.getD_cons_zero, List.getD_cons_succ, List.length_cons,
    List.length_nil]
  rw [sextets_val _ _ _ _ (Nat.mod_lt _ (by decide)) (Nat.mod_lt _ (by decide))
    (Nat.mod_lt _ (by decide)), sextets_recompose _ (by omega)]
  simp only [Nat.shiftRight_eq_div_pow, List.take, Nat.reduceSub, Nat.reduceAdd, Nat.reducePow]
  rw [byte_eq _ b0 (by omega), byte_eq _ b1 (by omega), byte_eq _ b2 (by omega)]

theorem quantumBytes_two (b0 b1 : Byte) :
    quantumBytes
      [(b0.val * 65536 + b1.val * 256) / 262144 % 64,
       (b0.val * 65536 + b1.val * 256) / 4096 % 64,
       (b0.val * 65536 + b1.val * 256) / 64 % 64] = [b0, b1] := by
  have h0 := b0.isLt
  have h1 := b1.isLt
  simp only [quantumBytes, quantumVal, List.getD_cons_zero, List.getD_cons_succ, List.length_cons,
    List.length_nil, List.getD_nil]
  rw [sextets_val _ _ _ _ (Nat.mod_lt _ (by decide)) (Nat.mod_lt _ (by decide)) (by decide)]
  simp only [Nat.shiftRight_eq_div_pow, List.take, Nat.reduceSub, Nat.reduceAdd, Nat.reducePow]
  rw [byte_eq _ b0 (by omega), byte_eq _ b1 (by omega)]

theorem quantumBytes_one (b0 : Byte) :
    quantumBytes [(b0.val * 65536) / 262144 % 64, (b0.val * 65536) / 4096 % 64] = [b0] := by
  have h0 := b0.isLt
  simp only [quantumBytes, quantumVal, List.getD_cons_zero, List.getD_cons_succ, List.length_cons,
    List.length_nil, List.getD_nil]
  rw [sextets_val _ _ _ _ (Nat.mod_lt _ (by decide)) (by decide) (by decide)]
  simp only [Nat.shiftRight_eq_div_pow, List.take, Nat.reduceSub, Nat.reduceAdd, Nat.reducePow]
  rw [byte_eq _ b0 (by omega)]

theorem decodeMap_padChar : decodeMap padChar = none := by decide

theorem isNewline_padChar : isNewline padChar = false := by decide

theorem decodeFrom_quantum (s0 s1 s2 s3 : Nat) (h0 : s0 < 64) (h1 : s1 < 64) (h2 : s2 < 64)
    (h3 : s3 < 64) (rest : GoString) :
    decodeFrom (encodeChar s0 :: encodeChar s1 :: encodeChar s2 :: encodeChar s3 :: rest) [] =
      (decodeFrom rest []).map (fun out => quantumBytes [s0, s1, s2, s3] ++ out) := by
  simp [decodeFrom, decodeMap_encodeChar_lt, h0, h1, h2, h3]

theorem decodeFrom_pad1 (s0 s1 s2 : Nat) (h0 : s0 < 64) (h1 : s1 < 64) (h2 : s2 < 64) :
    decodeFrom [encodeChar s0, encodeChar s1, encodeChar s2, padChar] [] =
      some (quantumBytes [s0, s1, s2]) := by
  simp [decodeFrom, decodeMap_encodeChar_lt, h0, h1, h2, decodeMap_padChar, isNewline_padChar,
    skipNewlines]

theorem decodeFrom_pad2 (s0 s1 : Nat) (h0 : s0 < 64) (h1 : s1 < 64) :
    decodeFrom [encodeChar s0, encodeChar s1, padChar, padChar] [] =
      some (quantumBytes [s0, s1]) := by
  simp [decodeFrom, decodeMap_encodeChar_lt, h0, h1, decodeMap_padChar, isNewline_padChar,
    skipNewlines]

/-- Decoding undoes encoding, for every byte sequence. -/
theorem DecodeString_EncodeToString (k : List Byte) :
    DecodeString (EncodeToString k) = some k := by
  unfold DecodeString
  induction k using EncodeToString.induct with
  | case1 => simp [EncodeToString, decodeFrom]
  | case2 b0 =>
    simp only [EncodeToString, and_63, Nat.shiftRight_eq_div_pow, Nat.shiftLeft_eq]
    rw [decodeFrom_pad2 _ _ (Nat.mod_lt _ (by decide)) (Nat.mod_lt _ (by decide))]
    exact congrArg some (quantumBytes_one b0)
  | case3 b0 b1 =>
    simp only [EncodeToString, and_63, group2_val _ _ b1.isLt, Nat.shiftRight_eq_div_pow]
    rw [decodeFrom_pad1 _ _ _ (Nat.mod_lt _ (by decide)) (Nat.mod_lt _ (by decide))
      (Nat.mod_lt _ (by decide))]
    exact congrArg some (quantumBytes_two b0 b1)
  | case4 b0 b1 b2 rest ih =>
    simp only [EncodeToString, encodeQuantum, and_63, group3_val _ _ _ b1.isLt b2.isLt,
      Nat.shiftRight_eq_div_pow, List.cons_append, List.nil_append]
    rw [decodeFrom_quantum _ _ _ _ (Nat.mod_lt _ (by decide)) (Nat.mod_lt _ (by decide))
      (Nat.mod_lt _ (by decide)) (Nat.mod_lt _ (by decide)), ih]
    simp only [Option.map_some']
    exact congrArg some (congrArg (fun l => l ++ rest) (quantumBytes_three b0 b1 b2))

/-! ## Status codes (`iToErr`) -/

theorem iToErr_nonneg (e : Int) (h : 0 ≤ e) : iToErr e = Except.ok none := by
  simp [iToErr, h]

theorem iToErr_lt (e : Int) (h : e < -8) : iToErr e = Except.ok (some ErrOther) := by
  have h1 : ¬ e ≥ 0 := by omega
  simp [iToErr, h1, h]

theorem iToErr_cases (e : Int) :
    (0 ≤ e ∧ iToErr e = Except.ok none) ∨ (e < -8 ∧ iToErr e = Except.ok (some ErrOther)) ∨
    (e = -1 ∧ iToErr e = Except.ok (some ErrBase64)) ∨
    (e = -2 ∧ iToErr e = Except.ok (some ErrCrypto)) ∨
    (e = -3 ∧ iToErr e = Except.ok (some ErrOrigin)) ∨
    (e = -4 ∧ iToErr e = Except.ok (some ErrChallenge)) ∨
    (e = -5 ∧ iToErr e = Except.ok (some ErrSignature)) ∨
    (e = -6 ∧ iToErr e = Except.ok (some ErrFormat)) ∨
    (e = -7 ∧ iToErr e = Except.error (Panic.indexOutOfRange 8 8)) ∨
    (e = -8 ∧ iToErr e = Except.error (Panic.indexOutOfRange 9 8)) := by
  by_cases h0 : 0 ≤ e
  · exact Or.inl ⟨h0, iToErr_nonneg e h0⟩
  · by_cases h8 : e < -8
    · exact Or.inr (Or.inl ⟨h8, iToErr_lt e h8⟩)
    · have h : e = -1 ∨ e = -2 ∨ e = -3 ∨ e = -4 ∨ e = -5 ∨ e = -6 ∨ e = -7 ∨ e = -8 := by
        omega
      rcases h with h | h | h | h | h | h | h | h <;> subst h <;> decide

theorem iToErr_ne_ErrInvalidPubKey (e : Int) : iToErr e ≠ Except.ok (some ErrInvalidPubKey) := by
  intro h
  rcases iToErr_cases e with h1 | h1 | h1 | h1 | h1 | h1 | h1 | h1 | h1 | h1 <;>
    (rw [h1.2] at h; exact absurd h (by decide))

/-- C1: the code does not map the documented statuses to their own error kinds.
Statuses -1 .. -6 are reported as the kind two places further down the table
(-1 as ErrBase64 instead of ErrMemory, ..., -6 as ErrFormat instead of
ErrChallenge), and a challenge mismatch (-6) or an origin mismatch (-5) reported
by the backend's verify call surfaces from RegistrationVerify as ErrFormat or
ErrSignature. -/
theorem iToErr_documented_codes_shifted :
    iToErr (-1) = Except.ok (some ErrBase64) ∧
    iToErr (-2) = Except.ok (some ErrCrypto) ∧
    iToErr (-3) = Except.ok (some ErrOrigin) ∧
    iToErr (-4) = Except.ok (some ErrChallenge) ∧
    iToErr (-5) = Except.ok (some ErrSignature) ∧
    iToErr (-6) = Except.ok (some ErrFormat) ∧
    (RegistrationVerify (scripted { okScript with rcRegistrationVerify := -6 }) world0 []).2 =
      Except.ok (⟨[], []⟩, some ErrFormat) ∧
    (AuthenticationVerify (scripted { okScript with rcAuthenticationVerify := -5 }) world0 []).2 =
      Except.ok (0, false, some ErrSignature) := by
  decide

/-- C2: the function iToErr is not total.  It fails with an index-out-of-range panic
exactly on the statuses -7 and -8, where the index it computes is 8 or 9 in a
table of 8 entries. -/
theorem iToErr_panics_iff (e : Int) :
    (∃ p, iToErr e = Except.error p) ↔ (e = -7 ∨ e = -8) := by
  constructor
  · rintro ⟨p, hp⟩
    rcases iToErr_cases e with h1 | h1 | h1 | h1 | h1 | h1 | h1 | h1 | h1 | h1 <;>
      first
      | exact Or.inl h1.1
      | exact Or.inr h1.1
      | (rw [h1.2] at hp; exact absurd hp (by simp))
  · rintro (h | h) <;> subst h
    · exact ⟨_, rfl⟩
    · exact ⟨_, rfl⟩

/-- C3, counterexample: the positive status 1 is outside the recognised range and
is reported as success (a nil error), not as ErrOther. -/
theorem iToErr_positive_not_ErrOther :
    iToErr 1 = Except.ok none ∧ iToErr 1 ≠ Except.ok (some ErrOther) := by
  decide

/-- C3, amended: every status below -8 is reported as ErrOther, and every positive
status is reported as success (a nil error); so no status outside 0, -1, ..., -8
is reported as one of the eight specific kinds. -/
theorem iToErr_outside_range (e : Int) :
    (e < -8 → iToErr e = Except.ok (some ErrOther)) ∧
    (0 < e → iToErr e = Except.ok none) ∧
    ((e < -8 ∨ 0 < e) → ∀ k ∈ errorList, iToErr e ≠ Except.ok (some k)) := by
  refine ⟨iToErr_lt e, fun h => iToErr_nonneg e (by omega), ?_⟩
  rintro (h | h) k hk hke
  · rw [iToErr_lt e h] at hke
    have : k = ErrOther := by cases hke; rfl
    subst this
    exact absurd hk (by decide)
  · rw [iToErr_nonneg e (by omega)] at hke
    cases hke

/-- Witness for C3 amended, at the statuses -9 and 1. -/
theorem iToErr_outside_range_witness :
    iToErr (-9) = Except.ok (some ErrOther) ∧ iToErr 1 = Except.ok none ∧
    (∀ k ∈ errorList, iToErr (-9) ≠ Except.ok (some k)) :=
  ⟨(iToErr_outside_range (-9)).1 (by decide), (iToErr_outside_range 1).2.1 (by decide),
    (iToErr_outside_range (-9)).2.2 (Or.inl (by decide))⟩

/-! ## `setPublicKey` -/

section SetPublicKey

variable {σ ρ α : Type}

theorem setPublicKey_of_none (B : Backend σ ρ α) (w : World σ) (s : GoString)
    (h : DecodeString s = none) :
    setPublicKey B w s = (w, Except.ok (some ErrBase64)) := by
  simp [setPublicKey, h]

theorem setPublicKey_of_length (B : Backend σ ρ α) (w : World σ) (s : GoString) (k : List Byte)
    (h : DecodeString s = some k) (hk : k.length ≠ 65) :
    setPublicKey B w s = (w, Except.ok (some ErrInvalidPubKey)) := by
  simp [setPublicKey, h, hk]

theorem setPublicKey_of_key (B : Backend σ ρ α) (w : World σ) (s : GoString) (k : List Byte)
    (h : DecodeString s = some k) (hk : k.length = 65) :
    setPublicKey B w s =
      (⟨(B.u2fs_set_publicKey w.ctx k).2, w.calls ++ [Call.set_publicKey k]⟩,
        iToErr (B.u2fs_set_publicKey w.ctx k).1) := by
  simp [setPublicKey, h, hk]

/-- C4: the method setPublicKey classifies its input before the backend sees it.  An
input that is not valid Base64 (the `StdEncoding` decoder returns an error)
gives ErrBase64 and one that decodes to a length other than 65 gives
ErrInvalidPubKey, in both cases without a backend call; an input that decodes
to exactly 65 bytes `k` gives what iToErr gives for the status of
`u2fs_set_publicKey` on `k`, which is nil when that status is 0. -/
theorem setPublicKey_classifies (B : Backend σ ρ α) (w : World σ) (s : GoString) :
    (DecodeString s = none → setPublicKey B w s = (w, Except.ok (some ErrBase64))) ∧
    (∀ k, DecodeString s = some k → k.length ≠ 65 →
      setPublicKey B w s = (w, Except.ok (some ErrInvalidPubKey))) ∧
    (∀ k, DecodeString s = some k → k.length = 65 →
      (setPublicKey B w s).2 = iToErr (B.u2fs_set_publicKey w.ctx k).1 ∧
      (setPublicKey B w s).1.calls = w.calls ++ [Call.set_publicKey k] ∧
      ((B.u2fs_set_publicKey w.ctx k).1 = 0 → (setPublicKey B w s).2 = Except.ok none)) := by
  refine ⟨setPublicKey_of_none B w s, setPublicKey_of_length B w s, ?_⟩
  intro k h hk
  rw [setPublicKey_of_key B w s k h hk]
  refine ⟨rfl, rfl, ?_⟩
  intro h0
  simp only [h0]
  rfl

/-- Witness for C4: an input that is not Base64, keys of 64 and 66 bytes, and a key
of 65 bytes, on the backend that accepts everything. -/
theorem setPublicKey_classifies_witness :
    setPublicKey (scripted okScript) world0 [33] = (world0, Except.ok (some ErrBase64)) ∧
    setPublicKey (scripted okScript) world0 (EncodeToString (List.replicate 64 0)) =
      (world0, Except.ok (some ErrInvalidPubKey)) ∧
    setPublicKey (scripted okScript) world0 (EncodeToString (List.replicate 66 0)) =
      (world0, Except.ok (some ErrInvalidPubKey)) ∧
    (setPublicKey (scripted okScript) world0 (EncodeToString key65)).2 = Except.ok none ∧
    (setPublicKey (scripted okScript) world0 (EncodeToString key65)).1.calls =
      [Call.set_publicKey key65] :=
  ⟨(setPublicKey_classifies (scripted okScript) world0 [33]).1 (by decide),
    (setPublicKey_classifies (scripted okScript) world0 _).2.1 (List.replicate 64 0)
      (DecodeString_EncodeToString _) (by decide),
    (setPublicKey_classifies (scripted okScript) world0 _).2.1 (List.replicate 66 0)
      (DecodeString_EncodeToString _) (by decide),
    ((setPublicKey_classifies (scripted okScript) world0 _).2.2 key65
      (DecodeString_EncodeToString _) (by decide)).2.2 rfl,
    ((setPublicKey_classifies (scripted okScript) world0 _).2.2 key65
      (DecodeString_EncodeToString _) (by decide)).2.1⟩

/-- C8, counterexample: on a well-formed 65-byte key, a backend whose
`u2fs_set_publicKey` answers -1 makes setPublicKey return ErrBase64 although the
backend setter was invoked and the stored public key has changed. -/
theorem setPublicKey_ErrBase64_after_backend_call :
    setPublicKey (scripted { okScript with rcSetPublicKey := -1 }) world0
        (EncodeToString key65) =
      (⟨⟨none, none, none, none, some key65⟩, [Call.set_publicKey key65]⟩,
        Except.ok (some ErrBase64)) ∧
    (setPublicKey (scripted { okScript with rcSetPublicKey := -1 }) world0
        (EncodeToString key65)).1 ≠ world0 := by
  decide

/-- C8, amended: whenever the input fails the local checks of setPublicKey (it is not
valid Base64, or it decodes to a length other than 65) the result is ErrBase64
or ErrInvalidPubKey, the backend setter is not invoked and the Context is what
it was before the call; and whenever setPublicKey returns ErrInvalidPubKey the
same holds.  (ErrBase64 can also be the translation of a backend status.) -/
theorem setPublicKey_frame (B : Backend σ ρ α) (w : World σ) (s : GoString) :
    (DecodeString s = none →
      setPublicKey B w s = (w, Except.ok (some ErrBase64))) ∧
    ((∃ k, DecodeString s = some k ∧ k.length ≠ 65) →
      setPublicKey B w s = (w, Except.ok (some ErrInvalidPubKey))) ∧
    ((setPublicKey B w s).2 = Except.ok (some ErrInvalidPubKey) →
      (setPublicKey B w s).1 = w) := by
  refine ⟨setPublicKey_of_none B w s, ?_, ?_⟩
  · rintro ⟨k, h, hk⟩
    exact setPublicKey_of_length B w s k h hk
  · intro h
    cases hd : DecodeString s with
    | none => rw [setPublicKey_of_none B w s hd]
    | some k =>
      by_cases hk : k.length = 65
      · rw [setPublicKey_of_key B w s k hd hk] at h
        exact absurd h (iToErr_ne_ErrInvalidPubKey _)
      · rw [setPublicKey_of_length B w s k hd hk]

/-- Witness for C8 amended: an input that is not Base64 and keys of 64 and 66
bytes leave the world as it was. -/
theorem setPublicKey_frame_witness :
    setPublicKey (scripted { okScript with rcSetPublicKey := -1 }) world0 [33] =
      (world0, Except.ok (some ErrBase64)) ∧
    setPublicKey (scripted { okScript with rcSetPublicKey := -1 }) world0
        (EncodeToString (List.replicate 64 0)) =
      (world0, Except.ok (some ErrInvalidPubKey)) ∧
    (setPublicKey (scripted okScript) world0 (EncodeToString (List.replicate 66 0))).1 =
      world0 :=
  ⟨(setPublicKey_frame _ world0 [33]).1 (by decide),
    (setPublicKey_frame _ world0 _).2.1 ⟨List.replicate 64 0, DecodeString_EncodeToString _,
      by decide⟩,
    (setPublicKey_frame (scripted okScript) world0 _).2.2 (by decide)⟩

end SetPublicKey

/-! ## `AuthenticationChallenge` with a malformed public key -/

section AuthChallenge

variable {σ ρ α : Type}

theorem setAppID_calls (B : Backend σ ρ α) (w : World σ) (appid : GoString) :
    (setAppID B w appid).1.calls = w.calls ++ [Call.set_appid (CString appid)] := rfl

theorem setOrigin_calls (B : Backend σ ρ α) (w : World σ) (origin : GoString) :
    (setOrigin B w origin).1.calls = w.calls ++ [Call.set_origin (CString origin)] := rfl

theorem setKeyHandle_calls (B : Backend σ ρ α) (w : World σ) (h : GoString) :
    (setKeyHandle B w h).1.calls = w.calls ++ [Call.set_keyHandle (CString h)] := rfl

theorem setPublicKey_malformed (B : Backend σ ρ α) (w : World σ) (s : GoString)
    (hbad : ∀ k, DecodeString s = some k → k.length ≠ 65) :
    setPublicKey B w s =
      (w, Except.ok (some (if DecodeString s = none then ErrBase64 else ErrInvalidPubKey))) := by
  cases hd : DecodeString s with
  | none => simp [setPublicKey_of_none B w s hd]
  | some k => simp [setPublicKey_of_length B w s k hd (hbad k hd)]

/-- C5, counterexample: with a backend that accepts everything, a PubKey that is not
valid Base64 makes AuthenticationChallenge fail with ErrBase64, not with
ErrInvalidPubKey; and when the backend rejects the appid with status -9, a
PubKey of 64 bytes makes it fail with ErrOther. -/
theorem AuthenticationChallenge_malformed_not_ErrInvalidPubKey :
    DecodeString [33] = none ∧
    (AuthenticationChallenge (scripted okScript) world0 [] [] ⟨[], [33]⟩).2 =
      Except.ok ([], some ErrBase64) ∧
    (AuthenticationChallenge (scripted okScript) world0 [] [] ⟨[], [33]⟩).2 ≠
      Except.ok ([], some ErrInvalidPubKey) ∧
    (AuthenticationChallenge (scripted { okScript with rcSetAppid := -9 }) world0 [] []
        ⟨[], EncodeToString (List.replicate 64 0)⟩).2 = Except.ok ([], some ErrOther) := by
  decide

/-- C5, amended: for every origin, appid and client whose PubKey does not decode to
exactly 65 bytes, AuthenticationChallenge never asks the backend for an
authentication challenge; whenever it returns, it returns the empty challenge
and a non-nil error; and when setAppID, setOrigin and setKeyHandle have returned
nil, it returns ErrBase64 for a PubKey that is not valid Base64 and
ErrInvalidPubKey for one that decodes to a length other than 65. -/
theorem AuthenticationChallenge_malformed_key (B : Backend σ ρ α) (w : World σ)
    (origin appid : GoString) (client : Client)
    (hbad : ∀ k, DecodeString client.PubKey = some k → k.length ≠ 65) :
    (∃ l, (AuthenticationChallenge B w origin appid client).1.calls = w.calls ++ l ∧
      Call.authentication_challenge ∉ l) ∧
    (∀ r, (AuthenticationChallenge B w origin appid client).2 = Except.ok r →
      r.1 = [] ∧ r.2 ≠ none) ∧
    ((setAppID B w appid).2 = Except.ok none →
      (setOrigin B (setAppID B w appid).1 origin).2 = Except.ok none →
      (setKeyHandle B (setOrigin B (setAppID B w appid).1 origin).1 client.Handle).2 =
        Except.ok none →
      (AuthenticationChallenge B w origin appid client).2 =
        Except.ok ([], some (if DecodeString client.PubKey = none then ErrBase64
          else ErrInvalidPubKey))) := by
  rcases h1 : setAppID B w appid with ⟨w1, (p1 | (_ | e1))⟩
  · have c1 : w1.calls = w.calls ++ [Call.set_appid (CString appid)] := by
      rw [← setAppID_calls B w appid, h1]
    refine ⟨⟨[Call.set_appid (CString appid)], ?_, by simp⟩, ?_, ?_⟩ <;>
      simp [AuthenticationChallenge, h1, c1]
  · have c1 : w1.calls = w.calls ++ [Call.set_appid (CString appid)] := by
      rw [← setAppID_calls B w appid, h1]
    rcases h2 : setOrigin B w1 origin with ⟨w2, (p2 | (_ | e2))⟩
    · have c2 : w2.calls = w1.calls ++ [Call.set_origin (CString origin)] := by
        rw [← setOrigin_calls B w1 origin, h2]
      refine ⟨⟨[Call.set_appid (CString appid), Call.set_origin (CString origin)], ?_,
        by simp⟩, ?_, ?_⟩ <;> simp [AuthenticationChallenge, h1, h2, c1, c2]
    · have c2 : w2.calls = w1.calls ++ [Call.set_origin (CString origin)] := by
        rw [← setOrigin_calls B w1 origin, h2]
      rcases h3 : setKeyHandle B w2 client.Handle with ⟨w3, (p3 | (_ | e3))⟩
      · have c3 : w3.calls = w2.calls ++ [Call.set_keyHandle (CString client.Handle)] := by
          rw [← setKeyHandle_calls B w2 client.Handle, h3]
        refine ⟨⟨[Call.set_appid (CString appid), Call.set_origin (CString origin),
          Call.set_keyHandle (CString client.Handle)], ?_, by simp⟩, ?_, ?_⟩ <;>
          simp [AuthenticationChallenge, h1, h2, h3, c1, c2, c3]
      · have c3 : w3.calls = w2.calls ++ [Call.set_keyHandle (CString client.Handle)] := by
          rw [← setKeyHandle_calls B w2 client.Handle, h3]
        have h4 := setPublicKey_malformed B w3 client.PubKey hbad
        refine ⟨⟨[Call.set_appid (CString appid), Call.set_origin (CString origin),
          Call.set_keyHandle (CString client.Handle)], ?_, by simp⟩, ?_, ?_⟩ <;>
          simp [AuthenticationChallenge, h1, h2, h3, h4, c1, c2, c3]
      · have c3 : w3.calls = w2.calls ++ [Call.set_keyHandle (CString client.Handle)] := by
          rw [← setKeyHandle_calls B w2 client.Handle, h3]
        refine ⟨⟨[Call.set_appid (CString appid), Call.set_origin (CString origin),
          Call.set_keyHandle (CString client.Handle)], ?_, by simp⟩, ?_, ?_⟩ <;>
          simp [AuthenticationChallenge, h1, h2, h3, c1, c2, c3]
    · have c2 : w2.calls = w1.calls ++ [Call.set_origin (CString origin)] := by
        rw [← setOrigin_calls B w1 origin, h2]
      refine ⟨⟨[Call.set_appid (CString appid), Call.set_origin (CString origin)], ?_,
        by simp⟩, ?_, ?_⟩ <;> simp [AuthenticationChallenge, h1, h2, c1, c2]
  · have c1 : w1.calls = w.calls ++ [Call.set_appid (CString appid)] := by
      rw [← setAppID_calls B w appid, h1]
    refine ⟨⟨[Call.set_appid (CString appid)], ?_, by simp⟩, ?_, ?_⟩ <;>
      simp [AuthenticationChallenge, h1, c1]

/-- Witness for C5 amended: a PubKey of 64 bytes on the backend that accepts
everything. -/
theorem AuthenticationChallenge_malformed_key_witness :
    (∃ l, (AuthenticationChallenge (scripted okScript) world0 [] []
        ⟨[], EncodeToString (List.replicate 64 0)⟩).1.calls = world0.calls ++ l ∧
      Call.authentication_challenge ∉ l) ∧
    (AuthenticationChallenge (scripted okScript) world0 [] []
      ⟨[], EncodeToString (List.replicate 64 0)⟩).2 = Except.ok ([], some ErrInvalidPubKey) :=
  ⟨(AuthenticationChallenge_malformed_key (scripted okScript) world0 [] []
      ⟨[], EncodeToString (List.replicate 64 0)⟩
      (fun k hk => by
        rw [DecodeString_EncodeToString] at hk
        cases hk
        decide)).1,
   (AuthenticationChallenge_malformed_key (scripted okScript) world0 [] []
      ⟨[], EncodeToString (List.replicate 64 0)⟩
      (fun k hk => by
        rw [DecodeString_EncodeToString] at hk
        cases hk
        decide)).2.2 rfl rfl rfl⟩

end AuthChallenge

/-! ## `RegistrationVerify` and the registered public key -/

section Registration

variable {σ ρ α : Type}

theorem GoBytes_length (mem : Nat → Byte) (n : Nat) : (GoBytes mem n).length = n := by
  simp [GoBytes]

theorem GoBytes_head (mem : Nat → Byte) (n : Nat) : (GoBytes mem (n + 1)).head? = some (mem 0) := by
  simp [GoBytes, List.range_succ_eq_map]

theorem registrationVerify_cases (B : Backend σ ρ α) (w : World σ) (response : GoString) :
    ((B.u2fs_registration_verify w.ctx (CString response)).1 = 0 ∧
      (registrationVerify B w response).2 =
        Except.ok (some (B.u2fs_registration_verify w.ctx (CString response)).2.1, none)) ∨
    ((B.u2fs_registration_verify w.ctx (CString response)).1 ≠ 0 ∧
      (registrationVerify B w response).2 =
        (iToErr (B.u2fs_registration_verify w.ctx (CString response)).1).map
          (fun err => (none, err))) := by
  by_cases h : (B.u2fs_registration_verify w.ctx (CString response)).1 = 0
  · exact Or.inl ⟨h, by simp [registrationVerify, h]⟩
  · exact Or.inr ⟨h, by simp [registrationVerify, h]⟩

/-- A Client that RegistrationVerify returns with a nil error carries the Base64
encoding of the 65 bytes at the backend's public-key pointer. -/
theorem RegistrationVerify_client (B : Backend σ ρ α) (w : World σ) (response : GoString)
    (client : Client)
    (h : (RegistrationVerify B w response).2 = Except.ok (client, none)) :
    client.PubKey = EncodeToString (GoBytes (B.u2fs_get_registration_publicKey
      (B.u2fs_registration_verify w.ctx (CString response)).2.1) 65) := by
  rcases registrationVerify_cases B w response with ⟨_, h2⟩ | ⟨_, h2⟩
  · rcases h1 : registrationVerify B w response with ⟨w1, r⟩
    rw [h1] at h2
    simp only at h2
    subst h2
    simp only [RegistrationVerify, h1, Except.ok.injEq, Prod.mk.injEq, and_true] at h
    rw [← h]
    rfl
  · rcases h1 : registrationVerify B w response with ⟨w1, r⟩
    rw [h1] at h2
    simp only at h2
    subst h2
    rcases he : iToErr (B.u2fs_registration_verify w.ctx (CString response)).1 with
      p | (_ | e) <;> simp [RegistrationVerify, h1, Except.map, he] at h

/-- A nil error from RegistrationVerify means that the backend has answered the
verify call with status 0. -/
theorem RegistrationVerify_status (B : Backend σ ρ α) (w : World σ) (response : GoString)
    (client : Client)
    (h : (RegistrationVerify B w response).2 = Except.ok (client, none)) :
    (B.u2fs_registration_verify w.ctx (CString response)).1 = 0 := by
  rcases registrationVerify_cases B w response with ⟨h0, _⟩ | ⟨_, h2⟩
  · exact h0
  · rcases h1 : registrationVerify B w response with ⟨w1, r⟩
    rw [h1] at h2
    simp only at h2
    subst h2
    rcases he : iToErr (B.u2fs_registration_verify w.ctx (CString response)).1 with
      p | (_ | e) <;> simp [RegistrationVerify, h1, Except.map, he] at h

/-- C6: for every registration response that RegistrationVerify accepts (returns a
nil error), the returned Client.PubKey is valid standard Base64 that decodes to
exactly 65 bytes whose first byte is 0x04.  The bytes are the 65 bytes at the
pointer the backend returns for the registered key; that they begin with 0x04
is the backend's format check, taken from the spec as `registrationKeyChecked`. -/
theorem RegistrationVerify_PubKey_valid (B : Backend σ ρ α) (w : World σ)
    (response : GoString) (client : Client)
    (hspec : registrationKeyChecked B w.ctx (CString response) = true)
    (h : (RegistrationVerify B w response).2 = Except.ok (client, none)) :
    ∃ k, DecodeString client.PubKey = some k ∧ k.length = 65 ∧ k.head? = some 4 ∧
      k = GoBytes (B.u2fs_get_registration_publicKey
        (B.u2fs_registration_verify w.ctx (CString response)).2.1) 65 := by
  have h0 := RegistrationVerify_status B w response client h
  have h4 : B.u2fs_get_registration_publicKey
      (B.u2fs_registration_verify w.ctx (CString response)).2.1 0 = 4 := by
    simpa [registrationKeyChecked, h0] using hspec
  refine ⟨GoBytes (B.u2fs_get_registration_publicKey
    (B.u2fs_registration_verify w.ctx (CString response)).2.1) 65, ?_, GoBytes_length _ 65,
    ?_, rfl⟩
  · rw [RegistrationVerify_client B w response client h, DecodeString_EncodeToString]
  · rw [GoBytes_head, h4]

/-- Witness for C6: the Client registered by the backend that accepts everything
and reports the key `0x04` followed by zero bytes. -/
theorem RegistrationVerify_PubKey_valid_witness :
    registrationKeyChecked (scripted okScript) world0.ctx (CString []) = true ∧
    (RegistrationVerify (scripted okScript) world0 []).2 =
      Except.ok (⟨[65, 65, 65, 65], EncodeToString key65⟩, none) ∧
    ∃ k, DecodeString (EncodeToString key65) = some k ∧ k.length = 65 ∧ k.head? = some 4 ∧
      k = GoBytes okScript.regPublicKey 65 :=
  ⟨by decide, by decide,
    RegistrationVerify_PubKey_valid (scripted okScript) world0 []
      ⟨[65, 65, 65, 65], EncodeToString key65⟩ (by decide) (by decide)⟩

end Registration

/-! ## `AuthenticationVerify` -/

section Authentication

variable {σ ρ α : Type}

/-- C7, counterexample: a backend that accepts the response and reports counter 5
and presence byte 0x02, whose low bit is clear.  AuthenticationVerify returns
userPresent = true. -/
theorem AuthenticationVerify_presence_nonzero :
    (AuthenticationVerify (scripted { okScript with counter := 5, present := 2 }) world0 []).2 =
      Except.ok (5, true, none) ∧
    ((2 : Byte).val &&& 1) ≠ 1 := by
  decide

/-- C7, amended: when `u2fs_authentication_verify` and
`u2fs_get_authentication_result` both answer status 0, with counter c and
presence byte b, AuthenticationVerify returns (c, b ≠ 0, nil): the counter
unchanged and userPresent true exactly when the presence byte is non-zero.
This is the low bit of b when b is 0 or 1. -/
theorem AuthenticationVerify_success (B : Backend σ ρ α) (w : World σ) (response : GoString)
    (hv : (B.u2fs_authentication_verify w.ctx (CString response)).1 = 0)
    (hr : (B.u2fs_get_authentication_result
      (B.u2fs_authentication_verify w.ctx (CString response)).2.1).1 = 0) :
    (AuthenticationVerify B w response).2 =
      Except.ok
        ((B.u2fs_get_authentication_result
          (B.u2fs_authentication_verify w.ctx (CString response)).2.1).2.2.1,
         decide ((B.u2fs_get_authentication_result
          (B.u2fs_authentication_verify w.ctx (CString response)).2.1).2.2.2 ≠ 0),
         none) ∧
    ((B.u2fs_get_authentication_result
        (B.u2fs_authentication_verify w.ctx (CString response)).2.1).2.2.2.val < 2 →
      (decide ((B.u2fs_get_authentication_result
        (B.u2fs_authentication_verify w.ctx (CString response)).2.1).2.2.2 ≠ 0) = true ↔
       (B.u2fs_get_authentication_result
        (B.u2fs_authentication_verify w.ctx (CString response)).2.1).2.2.2.val &&& 1 = 1)) := by
  constructor
  · simp [AuthenticationVerify, authenticationVerify, getResult, hv, hr]
  · generalize (B.u2fs_get_authentication_result
      (B.u2fs_authentication_verify w.ctx (CString response)).2.1).2.2.2 = b
    intro hb
    have : b = 0 ∨ b = 1 := by
      rcases b with ⟨v, hv⟩
      simp only at hb
      rcases (by omega : v = 0 ∨ v = 1) with h | h <;> subst h
      · exact Or.inl rfl
      · exact Or.inr rfl
    rcases this with h | h <;> subst h <;> decide

/-- Witness for C7 amended: counter 1 and presence byte 1 give (1, true, nil). -/
theorem AuthenticationVerify_success_witness :
    (AuthenticationVerify (scripted okScript) world0 []).2 = Except.ok (1, true, none) :=
  (AuthenticationVerify_success (scripted okScript) world0 [] rfl rfl).1

end Authentication

/-! ## Nil errors and positive statuses -/

section NilError

variable {σ ρ α : Type}

/-- C9: a positive backend status is treated as a failure by the callers (they test
`rc != 0`) and as success by iToErr (it tests `e >= 0`).  So on a positive
status Open returns a nil Context with a nil error, the two challenge calls
return the empty string with a nil error and the two verify calls return a nil
result with a nil error. -/
theorem positive_status_nil_error (B : Backend σ ρ α) (w : World σ) (response : GoString) :
    (0 < B.u2fs_init.1 → Open B = (none, Except.ok none)) ∧
    (0 < (B.u2fs_registration_challenge w.ctx).1 →
      (registrationChallenge B w).2 = Except.ok ([], none)) ∧
    (0 < (B.u2fs_authentication_challenge w.ctx).1 →
      (authenticationChallenge B w).2 = Except.ok ([], none)) ∧
    (0 < (B.u2fs_registration_verify w.ctx (CString response)).1 →
      (registrationVerify B w response).2 = Except.ok (none, none)) ∧
    (0 < (B.u2fs_authentication_verify w.ctx (CString response)).1 →
      (authenticationVerify B w response).2 = Except.ok (none, none)) := by
  refine ⟨?_, ?_, ?_, ?_, ?_⟩ <;> intro h
  · have h0 : B.u2fs_init.1 ≠ 0 := by omega
    simp [Open, h0, iToErr_nonneg _ (le_of_lt h)]
  · have h0 : (B.u2fs_registration_challenge w.ctx).1 ≠ 0 := by omega
    simp [registrationChallenge, h0, iToErr_nonneg _ (le_of_lt h), Except.map]
  · have h0 : (B.u2fs_authentication_challenge w.ctx).1 ≠ 0 := by omega
    simp [authenticationChallenge, h0, iToErr_nonneg _ (le_of_lt h), Except.map]
  · have h0 : (B.u2fs_registration_verify w.ctx (CString response)).1 ≠ 0 := by omega
    simp [registrationVerify, h0, iToErr_nonneg _ (le_of_lt h), Except.map]
  · have h0 : (B.u2fs_authentication_verify w.ctx (CString response)).1 ≠ 0 := by omega
    simp [authenticationVerify, h0, iToErr_nonneg _ (le_of_lt h), Except.map]

/-- Witness for C9: each call on a backend that answers it with status 1. -/
theorem positive_status_nil_error_witness :
    Open (scripted { okScript with rcInit := 1 }) = (none, Except.ok none) ∧
    (registrationChallenge (scripted { okScript with rcRegistrationChallenge := 1 }) world0).2 =
      Except.ok ([], none) ∧
    (authenticationChallenge (scripted { okScript with rcAuthenticationChallenge := 1 })
      world0).2 = Except.ok ([], none) ∧
    (registrationVerify (scripted { okScript with rcRegistrationVerify := 1 }) world0 []).2 =
      Except.ok (none, none) ∧
    (authenticationVerify (scripted { okScript with rcAuthenticationVerify := 1 }) world0 []).2 =
      Except.ok (none, none) :=
  ⟨(positive_status_nil_error (scripted { okScript with rcInit := 1 }) world0 []).1 (by decide),
   (positive_status_nil_error (scripted { okScript with rcRegistrationChallenge := 1 })
      world0 []).2.1 (by decide),
   (positive_status_nil_error (scripted { okScript with rcAuthenticationChallenge := 1 })
      world0 []).2.2.1 (by decide),
   (positive_status_nil_error (scripted { okScript with rcRegistrationVerify := 1 })
      world0 []).2.2.2.1 (by decide),
   (positive_status_nil_error (scripted { okScript with rcAuthenticationVerify := 1 })
      world0 []).2.2.2.2 (by decide)⟩

end NilError

/-! ## From registration output to authentication input -/

section RoundTrip

variable {σ ρ α : Type}

theorem Except_map_ne_ErrInvalidPubKey {β : Type} (e : Int) (x y : β) :
    (iToErr e).map (fun err => (x, err)) ≠ Except.ok (y, some ErrInvalidPubKey) := by
  intro h
  rcases he : iToErr e with p | (_ | k)
  · simp [he, Except.map] at h
  · simp [he, Except.map] at h
  · simp only [he, Except.map, Except.ok.injEq, Prod.mk.injEq, Option.some.injEq] at h
    rw [h.2] at he
    exact iToErr_ne_ErrInvalidPubKey e he

theorem authenticationChallenge_ne_ErrInvalidPubKey (B : Backend σ ρ α) (w : World σ)
    (s : GoString) :
    (authenticationChallenge B w).2 ≠ Except.ok (s, some ErrInvalidPubKey) := by
  by_cases h0 : (B.u2fs_authentication_challenge w.ctx).1 = 0
  · simp [authenticationChallenge, h0]
  · simp only [authenticationChallenge, h0, ne_eq, not_false_eq_true, if_true]
    exact Except_map_ne_ErrInvalidPubKey _ _ _

/-- C10, counterexample: a Client returned by RegistrationVerify makes
AuthenticationChallenge fail with ErrBase64 when the backend answers
`u2fs_set_appid` with status -1. -/
theorem AuthenticationChallenge_registered_ErrBase64 :
    (RegistrationVerify (scripted { okScript with rcSetAppid := -1 }) world0 []).2 =
      Except.ok (⟨[65, 65, 65, 65], EncodeToString key65⟩, none) ∧
    (AuthenticationChallenge (scripted { okScript with rcSetAppid := -1 }) world0 [] []
      ⟨[65, 65, 65, 65], EncodeToString key65⟩).2 = Except.ok ([], some ErrBase64) := by
  decide

/-- C10, amended: for the 65 bytes k that a registration result holds, the string
that getPublicKey produces is the standard Base64 of k, it passes the local
checks of setPublicKey, and the bytes setPublicKey hands to the backend are
exactly k.  Hence for a Client returned by RegistrationVerify, setPublicKey
never fails on its local checks, its result being the translation of the
backend status, and AuthenticationChallenge never fails with
ErrInvalidPubKey. -/
theorem registration_key_roundtrip (B : Backend σ ρ α) (w : World σ) :
    (∀ rr : ρ,
      (GoBytes (B.u2fs_get_registration_publicKey rr) 65).length = 65 ∧
      getPublicKey B rr = EncodeToString (GoBytes (B.u2fs_get_registration_publicKey rr) 65) ∧
      DecodeString (getPublicKey B rr) =
        some (GoBytes (B.u2fs_get_registration_publicKey rr) 65) ∧
      setPublicKey B w (getPublicKey B rr) =
        (⟨(B.u2fs_set_publicKey w.ctx (GoBytes (B.u2fs_get_registration_publicKey rr) 65)).2,
          w.calls ++ [Call.set_publicKey (GoBytes (B.u2fs_get_registration_publicKey rr) 65)]⟩,
         iToErr
          (B.u2fs_set_publicKey w.ctx (GoBytes (B.u2fs_get_registration_publicKey rr) 65)).1)) ∧
    (∀ (w0 : World σ) (response : GoString) (client : Client),
      (RegistrationVerify B w0 response).2 = Except.ok (client, none) →
      (∃ k : List Byte, k.length = 65 ∧ DecodeString client.PubKey = some k ∧
        setPublicKey B w client.PubKey =
          (⟨(B.u2fs_set_publicKey w.ctx k).2, w.calls ++ [Call.set_publicKey k]⟩,
           iToErr (B.u2fs_set_publicKey w.ctx k).1)) ∧
      ∀ (origin appid s : GoString),
        (AuthenticationChallenge B w origin appid client).2 ≠
          Except.ok (s, some ErrInvalidPubKey)) := by
  have key : ∀ k : List Byte, k.length = 65 →
      setPublicKey B w (EncodeToString k) =
        (⟨(B.u2fs_set_publicKey w.ctx k).2, w.calls ++ [Call.set_publicKey k]⟩,
         iToErr (B.u2fs_set_publicKey w.ctx k).1) := fun k hk =>
    setPublicKey_of_key B w _ k (DecodeString_EncodeToString k) hk
  constructor
  · intro rr
    exact ⟨GoBytes_length _ 65, rfl, DecodeString_EncodeToString _, key _ (GoBytes_length _ 65)⟩
  · intro w0 response client h
    have hc := RegistrationVerify_client B w0 response client h
    constructor
    · refine ⟨GoBytes (B.u2fs_get_registration_publicKey
        (B.u2fs_registration_verify w0.ctx (CString response)).2.1) 65,
        GoBytes_length _ 65, ?_, ?_⟩
      · rw [hc, DecodeString_EncodeToString]
      · rw [hc]
        exact setPublicKey_of_key B w _ _ (DecodeString_EncodeToString _) (GoBytes_length _ 65)
    · intro origin appid s hA
      have n1 := iToErr_ne_ErrInvalidPubKey (B.u2fs_set_appid w.ctx (CString appid)).1
      rcases h1 : setAppID B w appid with ⟨w1, (p1 | (_ | e1))⟩
      · simp [AuthenticationChallenge, h1] at hA
      · have n2 := iToErr_ne_ErrInvalidPubKey (B.u2fs_set_origin w1.ctx (CString origin)).1
        rcases h2 : setOrigin B w1 origin with ⟨w2, (p2 | (_ | e2))⟩
        · simp [AuthenticationChallenge, h1, h2] at hA
        · have n3 :=
            iToErr_ne_ErrInvalidPubKey (B.u2fs_set_keyHandle w2.ctx (CString client.Handle)).1
          rcases h3 : setKeyHandle B w2 client.Handle with ⟨w3, (p3 | (_ | e3))⟩
          · simp [AuthenticationChallenge, h1, h2, h3] at hA
          · have n4 := iToErr_ne_ErrInvalidPubKey (B.u2fs_set_publicKey w3.ctx
              (GoBytes (B.u2fs_get_registration_publicKey
                (B.u2fs_registration_verify w0.ctx (CString response)).2.1) 65)).1
            have h4 : (setPublicKey B w3 client.PubKey).2 = iToErr (B.u2fs_set_publicKey w3.ctx
              (GoBytes (B.u2fs_get_registration_publicKey
                (B.u2fs_registration_verify w0.ctx (CString response)).2.1) 65)).1 := by
              rw [hc, setPublicKey_of_key B w3 _ _ (DecodeString_EncodeToString _)
                (GoBytes_length _ 65)]
            rcases h5 : setPublicKey B w3 client.PubKey with ⟨w4, (p4 | (_ | e4))⟩
            · simp [AuthenticationChallenge, h1, h2, h3, h5] at hA
            · simp only [AuthenticationChallenge, h1, h2, h3, h5] at hA
              exact authenticationChallenge_ne_ErrInvalidPubKey B w4 s hA
            · simp only [AuthenticationChallenge, h1, h2, h3, h5, Except.ok.injEq,
                Prod.mk.injEq, Option.some.injEq] at hA
              rw [h5, hA.2] at h4
              exact n4 h4.symm
          · simp only [AuthenticationChallenge, h1, h2, h3, Except.ok.injEq,
              Prod.mk.injEq, Option.some.injEq] at hA
            have : (setKeyHandle B w2 client.Handle).2 = Except.ok (some e3) := by rw [h3]
            rw [hA.2] at this
            exact n3 this
        · simp only [AuthenticationChallenge, h1, h2, Except.ok.injEq,
            Prod.mk.injEq, Option.some.injEq] at hA
          have : (setOrigin B w1 origin).2 = Except.ok (some e2) := by rw [h2]
          rw [hA.2] at this
          exact n2 this
      · simp only [AuthenticationChallenge, h1, Except.ok.injEq,
          Prod.mk.injEq, Option.some.injEq] at hA
        have : (setAppID B w appid).2 = Except.ok (some e1) := by rw [h1]
        rw [hA.2] at this
        exact n1 this

/-- Witness for C10 amended: the Client registered by the backend that accepts
everything. -/
theorem registration_key_roundtrip_witness :
    (∃ k : List Byte, k.length = 65 ∧ DecodeString (EncodeToString key65) = some k ∧
        setPublicKey (scripted okScript) world0 (EncodeToString key65) =
          (⟨((scripted okScript).u2fs_set_publicKey world0.ctx k).2,
            world0.calls ++ [Call.set_publicKey k]⟩,
           iToErr ((scripted okScript).u2fs_set_publicKey world0.ctx k).1)) ∧
      ∀ (origin appid s : GoString),
        (AuthenticationChallenge (scripted okScript) world0 origin appid
          ⟨[65, 65, 65, 65], EncodeToString key65⟩).2 ≠ Except.ok (s, some ErrInvalidPubKey) :=
  (registration_key_roundtrip (scripted okScript) world0).2 world0 []
    ⟨[65, 65, 65, 65], EncodeToString key65⟩ (by decide)

end RoundTrip

end U2fServer
